import Mathlib

/-!
# mpesa-api-go: a shallow embedding of `api.go`

The Go package is a thin HTTP client.  Its functions are embedded as pure
Lean functions over an explicit `World` that supplies what the Go standard
library and the network supply at run time (`json.Marshal`, `http.NewRequest`,
`http.Client.Do`, `json.Decoder.Decode`).  Every function returns, next to
its Go results, the list of events it caused, in order.

Conventions
* a Go `string` that the program only concatenates is a Lean `String`;
* a Go `[]byte`, and the string read back from a response body, is a
  `List UInt8`, so that `string(respBody)` is the identity on bytes;
* a Go `error` is `Option Error`, `none` being `nil`;
* a Go `map[string]string` is an association list in insertion order.

Not embedded: the ten-second timeout of the HTTP client, the lines written
by `log.Println`, and the deferred `response.Body.Close()`; none of them
changes a result or a request.
-/

namespace MpesaApi

/-! ## Basic types -/

/-- Byte slices (`[]byte`) and byte strings. -/
abbrev Bytes := List UInt8

/-- The message carried by a non-nil Go `error`. -/
abbrev Error := String

/-- The bytes of a Go string (`[]byte(s)`): its UTF-8 encoding. -/
def goBytes (s : String) : Bytes :=
  s.data.flatMap String.utf8EncodeChar

/-! ## `encoding/base64`, `StdEncoding` -/

/-- The standard alphabet of `base64.StdEncoding`. -/
def encodeStd : List Char :=
  "ABCDEFGHIJKLMNOPQRSTUVWXYZabcdefghijklmnopqrstuvwxyz0123456789+/".data

/-- The lookup `enc.encode[i]`. -/
def encodeIdx (i : Nat) : Char :=
  encodeStd.getD i 'A'

/-- The padding character of `StdEncoding`. -/
def padChar : Char := '='

/-- The function `(*Encoding).Encode` for `StdEncoding`: three source bytes
become four characters; a remainder of one or two bytes is padded. -/
def base64Encode : Bytes → List Char
  | b0 :: b1 :: b2 :: rest =>
    let val := (b0.toNat <<< 16) ||| (b1.toNat <<< 8) ||| b2.toNat
    encodeIdx ((val >>> 18) &&& 0x3F) :: encodeIdx ((val >>> 12) &&& 0x3F) ::
      encodeIdx ((val >>> 6) &&& 0x3F) :: encodeIdx (val &&& 0x3F) :: base64Encode rest
  | [b0, b1] =>
    let val := (b0.toNat <<< 16) ||| (b1.toNat <<< 8)
    [encodeIdx ((val >>> 18) &&& 0x3F), encodeIdx ((val >>> 12) &&& 0x3F),
      encodeIdx ((val >>> 6) &&& 0x3F), padChar]
  | [b0] =>
    let val := b0.toNat <<< 16
    [encodeIdx ((val >>> 18) &&& 0x3F), encodeIdx ((val >>> 12) &&& 0x3F), padChar, padChar]
  | [] => []

/-- The call `base64.StdEncoding.EncodeToString(b)`. -/
def base64StdEncodeToString (b : Bytes) : String :=
  String.mk (base64Encode b)

/-- The inverse of `encodeIdx`: the six-bit value of an alphabet character,
`none` for any other character. -/
def decodeIdx (c : Char) : Option Nat :=
  let i := encodeStd.indexOf c
  if i < 64 then some i else none

/-- Standard padded base64 decoding (RFC 4648, section 4) of a character
list: the input is read four characters at a time and padding is accepted
in the last group only. -/
def base64Decode : List Char → Option Bytes
  | [] => some []
  | c0 :: c1 :: c2 :: c3 :: rest =>
    if c3 = padChar then
      if rest ≠ [] then none
      else if c2 = padChar then
        match decodeIdx c0, decodeIdx c1 with
        | some i0, some i1 =>
          let val := (i0 <<< 18) ||| (i1 <<< 12)
          some [UInt8.ofNat ((val >>> 16) &&& 0xFF)]
        | _, _ => none
      else
        match decodeIdx c0, decodeIdx c1, decodeIdx c2 with
        | some i0, some i1, some i2 =>
          let val := (i0 <<< 18) ||| (i1 <<< 12) ||| (i2 <<< 6)
          some [UInt8.ofNat ((val >>> 16) &&& 0xFF), UInt8.ofNat ((val >>> 8) &&& 0xFF)]
        | _, _, _ => none
    else
      match decodeIdx c0, decodeIdx c1, decodeIdx c2, decodeIdx c3, base64Decode rest with
      | some i0, some i1, some i2, some i3, some tail =>
        let val := (i0 <<< 18) ||| (i1 <<< 12) ||| (i2 <<< 6) ||| i3
        some (UInt8.ofNat ((val >>> 16) &&& 0xFF) :: UInt8.ofNat ((val >>> 8) &&& 0xFF) ::
          UInt8.ofNat (val &&& 0xFF) :: tail)
      | _, _, _, _, _ => none
  | _ => none

/-- The call `base64.StdEncoding.DecodeString(s)` on well-padded input. -/
def base64StdDecodeString (s : String) : Option Bytes :=
  base64Decode s.data

/-! ## Go maps, `net/textproto` and `net/http` headers -/

/-- A Go `map[string]V`, as an association list with distinct keys. -/
abbrev GoMap (V : Type) := List (String × V)

/-- The assignment `m[key] = value`: overwrite in place or insert. -/
def GoMap.store {V : Type} : GoMap V → String → V → GoMap V
  | [], key, value => [(key, value)]
  | (k, v) :: rest, key, value =>
    if k = key then (k, value) :: rest else (k, v) :: GoMap.store rest key value

/-- The lookup `m[key]` with the comma-ok result. -/
def GoMap.load {V : Type} : GoMap V → String → Option V
  | [], _ => none
  | (k, v) :: rest, key => if k = key then some v else GoMap.load rest key

/-- The token characters of RFC 7230, as tested by `validHeaderFieldByte`. -/
def validHeaderFieldByte (c : Char) : Bool :=
  c.isAlphanum ||
    ['!', '#', '$', '%', '&', Char.ofNat 39, '*', '+', '-', '.', '^', '_', Char.ofNat 96, '|',
      '~'].contains c

/-- The canonicalisation loop of `canonicalMIMEHeaderKey`: upper case for the
first letter and for a letter after a dash, lower case elsewhere. -/
def canonicalLoop : Bool → List Char → List Char
  | _, [] => []
  | upper, c :: cs =>
    let d := if upper && c.isLower then c.toUpper
      else if !upper && c.isUpper then c.toLower else c
    d :: canonicalLoop (d == '-') cs

/-- The function `textproto.CanonicalMIMEHeaderKey`: a key holding a byte that
is not a token character is returned unchanged. -/
def CanonicalMIMEHeaderKey (s : String) : String :=
  if s.data.all validHeaderFieldByte then String.mk (canonicalLoop true s.data) else s

/-- The type `http.Header`, a `map[string][]string` under canonical keys. -/
abbrev Header := GoMap (List String)

/-- The method `Header.Set`: replace the values of the canonical key. -/
def Header.Set (h : Header) (key value : String) : Header :=
  GoMap.store h (CanonicalMIMEHeaderKey key) [value]

/-- The method `Header.Add`: append to the values of the canonical key. -/
def Header.Add (h : Header) (key value : String) : Header :=
  let k := CanonicalMIMEHeaderKey key
  GoMap.store h k ((GoMap.load h k).getD [] ++ [value])

/-- The method `Header.Get`: first value of the canonical key, `""` if none. -/
def Header.Get (h : Header) (key : String) : String :=
  match GoMap.load h (CanonicalMIMEHeaderKey key) with
  | some (v :: _) => v
  | _ => ""

/-! ## Requests, responses and the world -/

/-- The fields of `*http.Request` that `api.go` sets. -/
structure Request where
  /-- The HTTP method. -/
  Method : String
  /-- The target URL as passed to `http.NewRequest`. -/
  URL : String
  /-- The bytes of the request body reader. -/
  Body : Bytes
  /-- The request header. -/
  Header : Header
  deriving DecidableEq, Repr

/-- The fields of `*http.Response` that `api.go` can observe. -/
structure Response where
  /-- The status code; `api.go` never reads it. -/
  StatusCode : Nat
  /-- The bytes the body stream yields. -/
  Body : Bytes
  /-- The error, if any, with which reading the body stream ends. -/
  readErr : Option Error
  deriving DecidableEq, Repr

/-- What a call makes happen outside its own frame. -/
inductive Event where
  /-- The dispatcher `newStringRequest` was entered with these arguments. -/
  | dispatch (url : String) (body : Bytes) (headers : GoMap String)
  /-- The call `client.Do(request)` put this request on the network. -/
  | roundTrip (request : Request)
  deriving DecidableEq, Repr

/-- Everything `api.go` takes from the standard library and the network.
`Payload` stands for the Go values handed to `json.Marshal`; the payload
structs themselves are declared in another file of the package.  An
operation sends at most one GET and one POST, so the answer of the network
is taken as a function of the request. -/
structure World (Payload : Type) where
  /-- The call `json.Marshal(v)`. -/
  jsonMarshal : Payload → Except Error Bytes
  /-- The error of `http.NewRequest(method, url, body)`, `none` on success. -/
  newRequest : String → String → Option Error
  /-- The call `client.Do(request)` with the ten-second client. -/
  clientDo : Request → Except Error Response
  /-- The field `AccessToken` after `json.NewDecoder(response.Body).Decode(&authResponse)`,
  whose own error the code discards; `""` when nothing was decoded into it. -/
  decodeAccessToken : Response → String

/-- The results of a Go function `(T, error)` together with its events. -/
structure Result (T : Type) where
  /-- The first result. -/
  val : T
  /-- The second result, `none` for `nil`. -/
  err : Option Error
  /-- The events caused, oldest first. -/
  trace : List Event
  deriving DecidableEq, Repr

/-! ## `api.go` -/

/-- The constant `SANDBOX = iota`. -/
def SANDBOX : Int := 0

/-- The constant `PRODUCTION`. -/
def PRODUCTION : Int := 1

/-- The struct `Mpesa`. -/
structure Mpesa where
  /-- The consumer key. -/
  ConsumerKey : String
  /-- The consumer secret. -/
  ConsumerSecret : String
  /-- The environment, a plain Go `int`. -/
  Env : Int
  deriving DecidableEq, Repr

/-- The constructor `New`. -/
def New (appKey appSecret : String) (env : Int) : Mpesa × Option Error :=
  (⟨appKey, appSecret, env⟩, none)

/-- The method `baseURL`. -/
def Mpesa.baseURL (m : Mpesa) : String :=
  if m.Env = PRODUCTION then "https://api.safaricom.co.ke/"
  else "https://sandbox.safaricom.co.ke/"

/-- The method `authenticate`. -/
def Mpesa.authenticate {P : Type} (m : Mpesa) (w : World P) : Result String :=
  let b := goBytes (m.ConsumerKey ++ ":" ++ m.ConsumerSecret)
  let encoded := base64StdEncodeToString b
  let url := m.baseURL ++ "oauth/v1/generate?grant_type=client_credentials"
  match w.newRequest "GET" url with
  | some err => ⟨"", some err, []⟩
  | none =>
    let request : Request :=
      ⟨"GET", url, goBytes encoded,
        (Header.Add [] "authorization" ("Basic " ++ encoded)).Add "cache-control" "no-cache"⟩
    match w.clientDo request with
    | .error err => ⟨"", some err, [.roundTrip request]⟩
    | .ok response =>
      let accessToken := w.decodeAccessToken response
      ⟨accessToken, none, [.roundTrip request]⟩

/-- The method `newStringRequest`, the dispatcher. -/
def Mpesa.newStringRequest {P : Type} (_m : Mpesa) (w : World P) (url : String) (body : Bytes)
    (headers : GoMap String) : Result Bytes :=
  match w.newRequest "POST" url with
  | some _ => ⟨[], none, [.dispatch url body headers]⟩
  | none =>
    let request : Request :=
      ⟨"POST", url, body, headers.foldl (fun h kv => h.Set kv.1 kv.2) []⟩
    match w.clientDo request with
    | .error err => ⟨[], some err, [.dispatch url body headers, .roundTrip request]⟩
    | .ok response =>
      match response.readErr with
      | some err => ⟨[], some err, [.dispatch url body headers, .roundTrip request]⟩
      | none => ⟨response.Body, none, [.dispatch url body headers, .roundTrip request]⟩

/-- The tail of every operation, `return m.newStringRequest(url, body, headers)`,
with the events `before` of the `authenticate` call put in front. -/
def Mpesa.thenDispatch {P : Type} (m : Mpesa) (w : World P) (before : List Event)
    (url : String) (body : Bytes) (headers : GoMap String) : Result Bytes :=
  let r := m.newStringRequest w url body headers
  ⟨r.val, r.err, before ++ r.trace⟩

/-- The method `STKPushSimulation`. -/
def Mpesa.STKPushSimulation {P : Type} (m : Mpesa) (w : World P) (stkPush : P) : Result Bytes :=
  match w.jsonMarshal stkPush with
  | .error _ => ⟨[], none, []⟩
  | .ok body =>
    let auth := m.authenticate w
    match auth.err with
    | some _ => ⟨[], none, auth.trace⟩
    | none =>
      let headers : GoMap String := []
      let headers := headers.store "content-type" "application/json"
      let headers := headers.store "authorization" ("Bearer " ++ auth.val)
      let headers := headers.store "cache-control" "no-cache"
      let url := m.baseURL ++ "mpesa/stkpush/v1/processrequest"
      m.thenDispatch w auth.trace url body headers

/-- The method `STKPushTransactionStatus`. -/
def Mpesa.STKPushTransactionStatus {P : Type} (m : Mpesa) (w : World P) (stkPush : P) :
    Result Bytes :=
  match w.jsonMarshal stkPush with
  | .error _ => ⟨[], none, []⟩
  | .ok body =>
    let auth := m.authenticate w
    match auth.err with
    | some _ => ⟨[], none, auth.trace⟩
    | none =>
      let headers : GoMap String := []
      let headers := headers.store "Content-Type" "application/json"
      let headers := headers.store "Authorization" ("Bearer " ++ auth.val)
      let url := m.baseURL ++ "mpesa/stkpushquery/v1/query"
      m.thenDispatch w auth.trace url body headers

/-- The method `C2BRegisterURL`. -/
def Mpesa.C2BRegisterURL {P : Type} (m : Mpesa) (w : World P) (c2BRegisterURL : P) :
    Result Bytes :=
  match w.jsonMarshal c2BRegisterURL with
  | .error err => ⟨[], some err, []⟩
  | .ok body =>
    let auth := m.authenticate w
    match auth.err with
    | some _ => ⟨[], none, auth.trace⟩
    | none =>
      let headers : GoMap String := []
      let headers := headers.store "Content-Type" "application/json"
      let headers := headers.store "Authorization" ("Bearer " ++ auth.val)
      let headers := headers.store "Cache-Control" "no-cache"
      let url := m.baseURL ++ "mpesa/c2b/v1/registerurl"
      m.thenDispatch w auth.trace url body headers

/-- The method `C2BSimulation`. -/
def Mpesa.C2BSimulation {P : Type} (m : Mpesa) (w : World P) (c2b : P) : Result Bytes :=
  match w.jsonMarshal c2b with
  | .error err => ⟨[], some err, []⟩
  | .ok body =>
    let auth := m.authenticate w
    match auth.err with
    | some _ => ⟨[], none, auth.trace⟩
    | none =>
      let headers : GoMap String := []
      let headers := headers.store "Content-Type" "application/json"
      let headers := headers.store "Authorization" ("Bearer " ++ auth.val)
      let headers := headers.store "cache-control" "no-cache"
      let url := m.baseURL ++ "mpesa/c2b/v1/simulate"
      m.thenDispatch w auth.trace url body headers

/-- The method `B2CRequest`. -/
def Mpesa.B2CRequest {P : Type} (m : Mpesa) (w : World P) (b2c : P) : Result Bytes :=
  match w.jsonMarshal b2c with
  | .error err => ⟨[], some err, []⟩
  | .ok body =>
    let auth := m.authenticate w
    match auth.err with
    | some _ => ⟨[], none, auth.trace⟩
    | none =>
      let headers : GoMap String := []
      let headers := headers.store "Content-Type" "application/json"
      let headers := headers.store "Authorization" ("Bearer " ++ auth.val)
      let headers := headers.store "cache-control" "no-cache"
      let url := m.baseURL ++ "mpesa/b2c/v1/paymentrequest"
      m.thenDispatch w auth.trace url body headers

/-- The method `B2BRequest`. -/
def Mpesa.B2BRequest {P : Type} (m : Mpesa) (w : World P) (b2b : P) : Result Bytes :=
  match w.jsonMarshal b2b with
  | .error _ => ⟨[], none, []⟩
  | .ok body =>
    let auth := m.authenticate w
    match auth.err with
    | some _ => ⟨[], none, auth.trace⟩
    | none =>
      let headers : GoMap String := []
      let headers := headers.store "Content-Type" "application/json"
      let headers := headers.store "Authorization" ("Bearer " ++ auth.val)
      let headers := headers.store "cache-control" "no-cache"
      let url := m.baseURL ++ "mpesa/b2b/v1/paymentrequest"
      m.thenDispatch w auth.trace url body headers

/-- The method `Reversal`. -/
def Mpesa.Reversal {P : Type} (m : Mpesa) (w : World P) (reversal : P) : Result Bytes :=
  match w.jsonMarshal reversal with
  | .error err => ⟨[], some err, []⟩
  | .ok body =>
    let auth := m.authenticate w
    match auth.err with
    | some _ => ⟨[], none, auth.trace⟩
    | none =>
      let headers : GoMap String := []
      let headers := headers.store "Content-Type" "application/json"
      let headers := headers.store "Authorization" ("Bearer " ++ auth.val)
      let headers := headers.store "cache-control" "no-cache"
      let url := m.baseURL ++ "safaricom/reversal/v1/request"
      m.thenDispatch w auth.trace url body headers

/-- The method `BalanceInquiry`: it authenticates before it serialises. -/
def Mpesa.BalanceInquiry {P : Type} (m : Mpesa) (w : World P) (balanceInquiry : P) :
    Result Bytes :=
  let auth := m.authenticate w
  match auth.err with
  | some _ => ⟨[], none, auth.trace⟩
  | none =>
    match w.jsonMarshal balanceInquiry with
    | .error err => ⟨[], some err, auth.trace⟩
    | .ok body =>
      let headers : GoMap String := []
      let headers := headers.store "Content-Type" "application/json"
      let headers := headers.store "Authorization" ("Bearer " ++ auth.val)
      let headers := headers.store "cache-control" "no-cache"
      let headers := headers.store "postman-token" "2aa448be-7d56-a796-065f-b378ede8b136"
      let url := m.baseURL ++ "safaricom/accountbalance/v1/query"
      m.thenDispatch w auth.trace url body headers

/-- The eight exported operations. -/
inductive Operation where
  | STKPushSimulation
  | STKPushTransactionStatus
  | C2BRegisterURL
  | C2BSimulation
  | B2CRequest
  | B2BRequest
  | Reversal
  | BalanceInquiry
  deriving DecidableEq, Repr

/-- Calling an operation by name. -/
def Operation.run {P : Type} (op : Operation) (m : Mpesa) (w : World P) (payload : P) :
    Result Bytes :=
  match op with
  | .STKPushSimulation => m.STKPushSimulation w payload
  | .STKPushTransactionStatus => m.STKPushTransactionStatus w payload
  | .C2BRegisterURL => m.C2BRegisterURL w payload
  | .C2BSimulation => m.C2BSimulation w payload
  | .B2CRequest => m.B2CRequest w payload
  | .B2BRequest => m.B2BRequest w payload
  | .Reversal => m.Reversal w payload
  | .BalanceInquiry => m.BalanceInquiry w payload

/-! ## Vocabulary of the specification -/

/-- The endpoint table of the specification: the path of each operation,
relative to the base URL. -/
def Operation.path : Operation → String
  | .STKPushSimulation => "mpesa/stkpush/v1/processrequest"
  | .STKPushTransactionStatus => "mpesa/stkpushquery/v1/query"
  | .C2BRegisterURL => "mpesa/c2b/v1/registerurl"
  | .C2BSimulation => "mpesa/c2b/v1/simulate"
  | .B2CRequest => "mpesa/b2c/v1/paymentrequest"
  | .B2BRequest => "mpesa/b2b/v1/paymentrequest"
  | .Reversal => "safaricom/reversal/v1/request"
  | .BalanceInquiry => "safaricom/accountbalance/v1/query"

/-- The base URL table of the specification, for the two environments. -/
def specBaseURL (env : Int) : String :=
  if env = SANDBOX then "https://sandbox.safaricom.co.ke/" else "https://api.safaricom.co.ke/"

/-- The number of places at which `//` occurs in a character list. -/
def countDoubleSlash : List Char → Nat
  | [] => 0
  | c :: cs =>
    (if c = '/' ∧ cs.head? = some '/' then 1 else 0) + countDoubleSlash cs

/-- An event that belongs to the operation POST: the dispatcher being
entered, or a POST request going out. -/
def Event.isPost : Event → Bool
  | .dispatch _ _ _ => true
  | .roundTrip request => request.Method == "POST"

/-- An event that is a network call. -/
def Event.isNetwork : Event → Bool
  | .dispatch _ _ _ => false
  | .roundTrip _ => true

/-- The header map of the specification for a bearer token: three entries. -/
def specHeaders (token : String) : Header :=
  [("Content-Type", ["application/json"]), ("Authorization", ["Bearer " ++ token]),
    ("Cache-Control", ["no-cache"])]

/-- The header a dispatched `map[string]string` becomes on the request, keys
canonicalised as `Header.Set` does. -/
def canonicalHeaders (headers : GoMap String) : Header :=
  headers.foldl (fun h kv => h.Set kv.1 kv.2) []

/-! ## Sample clients and worlds -/

/-- A fragment of the checks `http.NewRequest` makes through `url.Parse`: a
control character, or a colon in first position (no scheme), is refused. -/
def goNewRequest (_method url : String) : Option Error :=
  if url.data.any (fun c => c.toNat < 0x20 || c.toNat == 0x7F) then
    some "net/url: invalid control character in URL"
  else if url.data.head? = some ':' then some "missing protocol scheme"
  else none

/-- Two sample payload values: one that serialises, one on which
`json.Marshal` reports an error. -/
inductive SamplePayload where
  | minimal
  | rejected
  deriving DecidableEq, Repr

/-- The body `{"access_token":"T"}` of the mock authentication endpoint. -/
def tokenBody : Bytes := goBytes "\x7b\"access_token\":\"T\"\x7d"

/-- The body `{"ResponseCode":"0"}` of the mock operation endpoint. -/
def responseBody : Bytes := goBytes "\x7b\"ResponseCode\":\"0\"\x7d"

/-- A mock world: every GET is answered with `auth`, every other request with
`post`; the decoder knows the one token body and leaves `""` otherwise. -/
def sampleWorld (auth post : Except Error Response) : World SamplePayload where
  jsonMarshal := fun p =>
    match p with
    | .minimal => .ok (goBytes "\x7b\x7d")
    | .rejected => .error "json: unsupported value"
  newRequest := goNewRequest
  clientDo := fun request => if request.Method = "GET" then auth else post
  decodeAccessToken := fun response => if response.Body = tokenBody then "T" else ""

/-- The mock server of the end-to-end scenario. -/
def mockWorld : World SamplePayload :=
  sampleWorld (.ok ⟨200, tokenBody, none⟩) (.ok ⟨200, responseBody, none⟩)

/-- A world in which the token request fails at the transport layer. -/
def authDownWorld : World SamplePayload :=
  sampleWorld (.error "dial tcp: connection refused") (.ok ⟨200, responseBody, none⟩)

/-- A world in which the token endpoint answers 500 with an empty body. -/
def auth500World : World SamplePayload :=
  sampleWorld (.ok ⟨500, [], none⟩) (.ok ⟨200, responseBody, none⟩)

/-- A world in which the operation endpoint answers 404. -/
def post404World : World SamplePayload :=
  sampleWorld (.ok ⟨200, tokenBody, none⟩) (.ok ⟨404, goBytes "not found", none⟩)

/-- The client of the end-to-end scenario. -/
def sampleClient : Mpesa := (New "k" "s" SANDBOX).1

/-- The POST request `STKPushSimulation` sends for `sampleClient` once the
token `T` has been obtained. -/
def samplePost : Request :=
  ⟨"POST", "https://sandbox.safaricom.co.ke/mpesa/stkpush/v1/processrequest",
    goBytes "\x7b\x7d",
    [("Content-Type", ["application/json"]), ("Authorization", ["Bearer T"]),
      ("Cache-Control", ["no-cache"])]⟩

/-- The header map `STKPushSimulation` hands to the dispatcher for token `T`. -/
def sampleHeaders : GoMap String :=
  [("content-type", "application/json"), ("authorization", "Bearer T"),
    ("cache-control", "no-cache")]

/-! ## Lemmas on base64 -/

theorem or_shift_eq_add (a b k : Nat) (hb : b < 2 ^ k) : (a <<< k) ||| b = a * 2 ^ k + b := by
  rw [Nat.shiftLeft_eq, Nat.mul_comm, ← Nat.mul_add_lt_is_or hb]

theorem and_63 (x : Nat) : x &&& 0x3F = x % 64 := Nat.and_pow_two_sub_one_eq_mod x 6

theorem and_255 (x : Nat) : x &&& 0xFF = x % 256 := Nat.and_pow_two_sub_one_eq_mod x 8

theorem pack3 (a b c : Nat) (hb : b < 256) (hc : c < 256) :
    (a <<< 16) ||| (b <<< 8) ||| c = a * 65536 + b * 256 + c := by
  rw [Nat.or_assoc, or_shift_eq_add b c 8 (by omega), or_shift_eq_add a _ 16 (by omega)]
  omega

theorem pack4 (a b c d : Nat) (hb : b < 64) (hc : c < 64) (hd : d < 64) :
    (a <<< 18) ||| (b <<< 12) ||| (c <<< 6) ||| d = a * 262144 + b * 4096 + c * 64 + d := by
  rw [Nat.or_assoc, Nat.or_assoc, or_shift_eq_add c d 6 (by omega),
    or_shift_eq_add b _ 12 (by omega), or_shift_eq_add a _ 18 (by omega)]
  omega

theorem decodeIdx_encodeIdx : ∀ i, i < 64 → decodeIdx (encodeIdx i) = some i := by
  decide

theorem encodeIdx_ne_pad : ∀ i, i < 64 → encodeIdx i ≠ padChar := by
  decide

theorem ofNat_toNat (b : UInt8) : UInt8.ofNat b.toNat = b := by
  cases b with
  | mk v => simp [UInt8.ofNat, UInt8.toNat]

theorem decode_quad (i0 i1 i2 i3 : Nat) (h0 : i0 < 64) (h1 : i1 < 64) (h2 : i2 < 64)
    (h3 : i3 < 64) (rest : List Char) (tail : Bytes) (ht : base64Decode rest = some tail) :
    base64Decode (encodeIdx i0 :: encodeIdx i1 :: encodeIdx i2 :: encodeIdx i3 :: rest) =
      some (UInt8.ofNat ((i0 * 262144 + i1 * 4096 + i2 * 64 + i3) / 65536 % 256) ::
        UInt8.ofNat ((i0 * 262144 + i1 * 4096 + i2 * 64 + i3) / 256 % 256) ::
        UInt8.ofNat ((i0 * 262144 + i1 * 4096 + i2 * 64 + i3) % 256) :: tail) := by
  rw [base64Decode, if_neg (encodeIdx_ne_pad i3 h3)]
  simp only [decodeIdx_encodeIdx _ h0, decodeIdx_encodeIdx _ h1, decodeIdx_encodeIdx _ h2,
    decodeIdx_encodeIdx _ h3, ht, pack4 _ _ _ _ h1 h2 h3, and_255, Nat.shiftRight_eq_div_pow]

theorem decode_pad1 (i0 i1 i2 : Nat) (h0 : i0 < 64) (h1 : i1 < 64) (h2 : i2 < 64) :
    base64Decode [encodeIdx i0, encodeIdx i1, encodeIdx i2, padChar] =
      some [UInt8.ofNat ((i0 * 262144 + i1 * 4096 + i2 * 64) / 65536 % 256),
        UInt8.ofNat ((i0 * 262144 + i1 * 4096 + i2 * 64) / 256 % 256)] := by
  have h : (i0 <<< 18) ||| (i1 <<< 12) ||| (i2 <<< 6) = i0 * 262144 + i1 * 4096 + i2 * 64 := by
    rw [Nat.or_assoc, or_shift_eq_add i1 _ 12 (by rw [Nat.shiftLeft_eq]; omega),
      or_shift_eq_add i0 _ 18 (by rw [Nat.shiftLeft_eq]; omega), Nat.shiftLeft_eq]
    omega
  rw [base64Decode, if_pos rfl, if_neg (by simp), if_neg (encodeIdx_ne_pad i2 h2)]
  simp only [decodeIdx_encodeIdx _ h0, decodeIdx_encodeIdx _ h1, decodeIdx_encodeIdx _ h2,
    h, and_255, Nat.shiftRight_eq_div_pow]

theorem decode_pad2 (i0 i1 : Nat) (h0 : i0 < 64) (h1 : i1 < 64) :
    base64Decode [encodeIdx i0, encodeIdx i1, padChar, padChar] =
      some [UInt8.ofNat ((i0 * 262144 + i1 * 4096) / 65536 % 256)] := by
  have h : (i0 <<< 18) ||| (i1 <<< 12) = i0 * 262144 + i1 * 4096 := by
    rw [or_shift_eq_add i0 _ 18 (by rw [Nat.shiftLeft_eq]; omega), Nat.shiftLeft_eq]
    omega
  rw [base64Decode, if_pos rfl, if_neg (by simp), if_pos rfl]
  simp only [decodeIdx_encodeIdx _ h0, decodeIdx_encodeIdx _ h1,
    h, and_255, Nat.shiftRight_eq_div_pow]

/-- Decoding undoes encoding, for every byte list. -/
theorem base64Decode_encode (bs : Bytes) : base64Decode (base64Encode bs) = some bs := by
  induction bs using base64Encode.induct with
  | case1 b0 b1 b2 rest ih =>
    have h0 := b0.toNat_lt
    have h1 := b1.toNat_lt
    have h2 := b2.toNat_lt
    simp only [base64Encode, pack3 _ _ _ h1 h2, and_63, Nat.shiftRight_eq_div_pow]
    rw [decode_quad _ _ _ _ (by omega) (by omega) (by omega) (by omega) _ _ ih]
    have e0 : ((b0.toNat * 65536 + b1.toNat * 256 + b2.toNat) / 2 ^ 18 % 64 * 262144 +
        (b0.toNat * 65536 + b1.toNat * 256 + b2.toNat) / 2 ^ 12 % 64 * 4096 +
        (b0.toNat * 65536 + b1.toNat * 256 + b2.toNat) / 2 ^ 6 % 64 * 64 +
        (b0.toNat * 65536 + b1.toNat * 256 + b2.toNat) % 64) =
        b0.toNat * 65536 + b1.toNat * 256 + b2.toNat := by omega
    rw [e0]
    have e1 : (b0.toNat * 65536 + b1.toNat * 256 + b2.toNat) / 65536 % 256 = b0.toNat := by omega
    have e2 : (b0.toNat * 65536 + b1.toNat * 256 + b2.toNat) / 256 % 256 = b1.toNat := by omega
    have e3 : (b0.toNat * 65536 + b1.toNat * 256 + b2.toNat) % 256 = b2.toNat := by omega
    rw [e1, e2, e3, ofNat_toNat, ofNat_toNat, ofNat_toNat]
  | case2 b0 b1 =>
    have h0 := b0.toNat_lt
    have h1 := b1.toNat_lt
    have hp : (b0.toNat <<< 16) ||| (b1.toNat <<< 8) = b0.toNat * 65536 + b1.toNat * 256 := by
      rw [or_shift_eq_add b0.toNat _ 16 (by rw [Nat.shiftLeft_eq]; omega), Nat.shiftLeft_eq]
      omega
    simp only [base64Encode, hp, and_63, Nat.shiftRight_eq_div_pow]
    rw [decode_pad1 _ _ _ (by omega) (by omega) (by omega)]
    have e1 : ((b0.toNat * 65536 + b1.toNat * 256) / 2 ^ 18 % 64 * 262144 +
        (b0.toNat * 65536 + b1.toNat * 256) / 2 ^ 12 % 64 * 4096 +
        (b0.toNat * 65536 + b1.toNat * 256) / 2 ^ 6 % 64 * 64) / 65536 % 256 = b0.toNat := by
      omega
    have e2 : ((b0.toNat * 65536 + b1.toNat * 256) / 2 ^ 18 % 64 * 262144 +
        (b0.toNat * 65536 + b1.toNat * 256) / 2 ^ 12 % 64 * 4096 +
        (b0.toNat * 65536 + b1.toNat * 256) / 2 ^ 6 % 64 * 64) / 256 % 256 = b1.toNat := by
      omega
    rw [e1, e2, ofNat_toNat, ofNat_toNat]
  | case3 b0 =>
    have h0 := b0.toNat_lt
    simp only [base64Encode, Nat.shiftLeft_eq, and_63, Nat.shiftRight_eq_div_pow]
    rw [decode_pad2 _ _ (by omega) (by omega)]
    have e1 : ((b0.toNat * 2 ^ 16) / 2 ^ 18 % 64 * 262144 +
        (b0.toNat * 2 ^ 16) / 2 ^ 12 % 64 * 4096) / 65536 % 256 = b0.toNat := by
      omega
    rw [e1, ofNat_toNat]
  | case4 => rfl

/-! ## Lemmas on traces -/

theorem baseURL_of_env (m : Mpesa) (henv : m.Env = SANDBOX ∨ m.Env = PRODUCTION) :
    m.baseURL = specBaseURL m.Env := by
  rcases henv with h | h <;> simp [Mpesa.baseURL, specBaseURL, h, SANDBOX, PRODUCTION]

theorem authenticate_isPost {P : Type} (m : Mpesa) (w : World P) (e : Event)
    (he : e ∈ (m.authenticate w).trace) : e.isPost = false := by
  unfold Mpesa.authenticate at he
  simp only at he
  split at he
  · simp at he
  · split at he <;> simp at he <;> subst he <;> simp [Event.isPost]

theorem mem_newStringRequest {P : Type} (m : Mpesa) (w : World P) (url u : String)
    (body b : Bytes) (headers h : GoMap String)
    (he : Event.dispatch u b h ∈ (m.newStringRequest w url body headers).trace) :
    u = url ∧ b = body ∧ h = headers := by
  unfold Mpesa.newStringRequest at he
  simp only at he
  split at he
  · simpa using he
  · split at he
    · simpa using he
    · split at he <;> simpa using he

theorem authenticate_err_of_transport {P : Type} (m : Mpesa) (w : World P)
    (hget : ∀ request : Request, request.Method = "GET" → ∃ e, w.clientDo request = .error e) :
    (m.authenticate w).err ≠ none := by
  have key : ∀ (r : Request) (resp : Response), r.Method = "GET" →
      w.clientDo r = .ok resp → False := by
    intro r resp hm h
    obtain ⟨e, he⟩ := hget r hm
    rw [he] at h
    cases h
  unfold Mpesa.authenticate
  simp only
  split
  · simp
  · split
    · simp
    · rename_i response hresp
      refine (key _ _ ?_ hresp).elim
      rfl

/-- The three ways an operation can end: before any call, after
`authenticate` only, or through the dispatcher. -/
theorem run_cases {P : Type} (op : Operation) (m : Mpesa) (w : World P) (p : P) :
    ((op.run m w p).trace = [] ∧ (op.run m w p).val = []) ∨
    ((op.run m w p).trace = (m.authenticate w).trace ∧ (op.run m w p).val = [] ∧
      ((m.authenticate w).err ≠ none ∨ ∃ e, w.jsonMarshal p = .error e)) ∨
    (∃ body headers, w.jsonMarshal p = .ok body ∧ (m.authenticate w).err = none ∧
      op.run m w p =
        m.thenDispatch w (m.authenticate w).trace (m.baseURL ++ op.path) body headers) := by
  cases op <;>
    simp only [Operation.run, Mpesa.STKPushSimulation, Mpesa.STKPushTransactionStatus,
      Mpesa.C2BRegisterURL, Mpesa.C2BSimulation, Mpesa.B2CRequest, Mpesa.B2BRequest,
      Mpesa.Reversal, Mpesa.BalanceInquiry, Operation.path] <;>
    cases hm : w.jsonMarshal p <;> cases ha : (m.authenticate w).err <;> simp

theorem sent_newStringRequest {P : Type} (m : Mpesa) (w : World P) (url : String)
    (body : Bytes) (headers : GoMap String) (request : Request)
    (he : Event.roundTrip request ∈ (m.newStringRequest w url body headers).trace) :
    request = ⟨"POST", url, body, canonicalHeaders headers⟩ ∧ w.newRequest "POST" url = none := by
  unfold Mpesa.newStringRequest at he
  simp only at he
  split at he
  · simp at he
  · rename_i hn
    refine ⟨?_, hn⟩
    split at he
    · simpa [canonicalHeaders] using he
    · split at he <;> simpa [canonicalHeaders] using he

theorem newStringRequest_answered {P : Type} (m : Mpesa) (w : World P) (url : String)
    (body : Bytes) (headers : GoMap String) (request : Request) (status : Nat) (B : Bytes)
    (he : Event.roundTrip request ∈ (m.newStringRequest w url body headers).trace)
    (hresp : w.clientDo request = .ok ⟨status, B, none⟩) :
    (m.newStringRequest w url body headers).val = B ∧
      (m.newStringRequest w url body headers).err = none ∧
      Event.dispatch url body headers ∈ (m.newStringRequest w url body headers).trace := by
  obtain ⟨hreq, hn⟩ := sent_newStringRequest m w url body headers request he
  subst hreq
  simp only [canonicalHeaders] at hresp
  simp [Mpesa.newStringRequest, hn, hresp]

/-! ## Claims -/

/-- C2 (as amended): when `authenticate` returns a non-nil error, which it
does when building the GET fails or the GET fails at the transport layer,
no operation enters the dispatcher or sends a POST. -/
theorem no_post_when_authenticate_errs {P : Type} (op : Operation) (m : Mpesa) (w : World P)
    (p : P) (h : (m.authenticate w).err ≠ none) :
    ∀ e ∈ (op.run m w p).trace, e.isPost = false := by
  intro e he
  rcases run_cases op m w p with h1 | h2 | ⟨body, headers, _, h3, _⟩
  · rw [h1.1] at he
    simp at he
  · rw [h2.1] at he
    exact authenticate_isPost m w e he
  · exact absurd h3 h

/-- C6: if the POST of an operation is answered, whatever the status code,
by a response whose body `B` reads to the end, the operation returns
`(B, nil)`, which is the result of the dispatcher unchanged. -/
theorem operation_returns_body {P : Type} (op : Operation) (m : Mpesa) (w : World P) (p : P)
    (request : Request) (status : Nat) (B : Bytes)
    (hsent : Event.roundTrip request ∈ (op.run m w p).trace)
    (hpost : request.Method = "POST")
    (hresp : w.clientDo request = .ok ⟨status, B, none⟩) :
    (op.run m w p).val = B ∧ (op.run m w p).err = none ∧
      ∃ url body headers, Event.dispatch url body headers ∈ (op.run m w p).trace ∧
        (op.run m w p).val = (m.newStringRequest w url body headers).val ∧
        (op.run m w p).err = (m.newStringRequest w url body headers).err := by
  have hauth : Event.roundTrip request ∉ (m.authenticate w).trace := by
    intro hmem
    have := authenticate_isPost m w _ hmem
    simp [Event.isPost, hpost] at this
  rcases run_cases op m w p with h1 | h2 | ⟨body, headers, _, _, h3⟩
  · rw [h1.1] at hsent
    simp at hsent
  · rw [h2.1] at hsent
    exact absurd hsent hauth
  · rw [h3] at hsent ⊢
    simp only [Mpesa.thenDispatch, List.mem_append] at hsent ⊢
    have hd : Event.roundTrip request ∈
        (m.newStringRequest w (m.baseURL ++ op.path) body headers).trace := by
      rcases hsent with h | h
      · exact absurd h hauth
      · exact h
    obtain ⟨hv, he, hdis⟩ := newStringRequest_answered m w _ body headers request status B hd hresp
    exact ⟨hv, he, m.baseURL ++ op.path, body, headers, Or.inr hdis, rfl, rfl⟩

/-- C7: for a client in the sandbox or the production environment, the URL
an operation passes to the dispatcher is the base URL of that environment
followed by the path of the operation, and `//` occurs in it once only,
in the leading `https://`. -/
theorem dispatched_url_is_base_plus_path {P : Type} (op : Operation) (m : Mpesa) (w : World P)
    (p : P) (url : String) (body : Bytes) (headers : GoMap String)
    (henv : m.Env = SANDBOX ∨ m.Env = PRODUCTION)
    (hd : Event.dispatch url body headers ∈ (op.run m w p).trace) :
    url = specBaseURL m.Env ++ op.path ∧ "https://".data <+: url.data ∧
      countDoubleSlash url.data = 1 := by
  have hauth : Event.dispatch url body headers ∉ (m.authenticate w).trace := by
    intro hmem
    have := authenticate_isPost m w _ hmem
    simp [Event.isPost] at this
  have hurl : url = specBaseURL m.Env ++ op.path := by
    rcases run_cases op m w p with h1 | h2 | ⟨b, h, _, _, h3⟩
    · rw [h1.1] at hd
      simp at hd
    · rw [h2.1] at hd
      exact absurd hd hauth
    · rw [h3] at hd
      simp only [Mpesa.thenDispatch, List.mem_append] at hd
      rcases hd with hd | hd
      · exact absurd hd hauth
      · rw [(mem_newStringRequest m w _ url _ body _ headers hd).1, baseURL_of_env m henv]
  subst hurl
  refine ⟨rfl, ?_, ?_⟩ <;> rcases henv with h | h <;> rw [h] <;> cases op <;> decide

/-- C9: when the GET request can be built, `authenticate` sends exactly one
request: a GET to the base URL followed by
`oauth/v1/generate?grant_type=client_credentials`, whose `authorization`
header is `Basic ` followed by the padded standard base64 of the bytes of
`key:secret`; decoding what follows `Basic ` gives those bytes back. -/
theorem authenticate_request {P : Type} (w : World P) (k s : String) (env : Int)
    (hnew : w.newRequest "GET"
      ((New k s env).1.baseURL ++ "oauth/v1/generate?grant_type=client_credentials") = none) :
    ∃ request, ((New k s env).1.authenticate w).trace = [Event.roundTrip request] ∧
      request.Method = "GET" ∧
      request.URL =
        (New k s env).1.baseURL ++ "oauth/v1/generate?grant_type=client_credentials" ∧
      request.Header.Get "authorization" =
        "Basic " ++ base64StdEncodeToString (goBytes (k ++ ":" ++ s)) ∧
      base64StdDecodeString (String.mk ((request.Header.Get "authorization").data.drop 6)) =
        some (goBytes (k ++ ":" ++ s)) := by
  have hk1 : CanonicalMIMEHeaderKey "authorization" = "Authorization" := by decide
  have hk2 : CanonicalMIMEHeaderKey "cache-control" = "Cache-Control" := by decide
  have hne : ¬ ("Authorization" = "Cache-Control") := by decide
  have hget : ∀ v : String,
      Header.Get ((Header.Add [] "authorization" v).Add "cache-control" "no-cache")
        "authorization" = v := by
    intro v
    simp [Header.Get, Header.Add, GoMap.store, GoMap.load, hk1, hk2, hne]
  have hdrop : ∀ e : String, String.mk (("Basic " ++ e).data.drop 6) = e := by
    intro e
    have : "Basic ".data = ['B', 'a', 's', 'i', 'c', ' '] := by decide
    simp [String.data_append, this]
  refine ⟨⟨"GET", (New k s env).1.baseURL ++ "oauth/v1/generate?grant_type=client_credentials",
    goBytes (base64StdEncodeToString (goBytes (k ++ ":" ++ s))),
    (Header.Add [] "authorization"
      ("Basic " ++ base64StdEncodeToString (goBytes (k ++ ":" ++ s)))).Add
      "cache-control" "no-cache"⟩, ?_, rfl, rfl, ?_, ?_⟩
  · simp only [New] at hnew ⊢
    simp only [Mpesa.authenticate, hnew]
    split <;> rfl
  · exact hget _
  · simp only [hget, hdrop, base64StdDecodeString, base64StdEncodeToString]
    exact base64Decode_encode _

/-- C10: `New` never fails and stores its three arguments unchanged, for
every integer environment; a client whose environment is not `PRODUCTION`
uses the sandbox base URL. -/
theorem New_total_and_defaults_to_sandbox (k s : String) (env : Int) :
    New k s env = (⟨k, s, env⟩, none) ∧
      (env ≠ PRODUCTION → (New k s env).1.baseURL = "https://sandbox.safaricom.co.ke/") := by
  refine ⟨rfl, fun h => ?_⟩
  simp [New, Mpesa.baseURL, h]

/-- C1 (the code departs from it): with the token request refused at the
transport layer, `authenticate` returns a non-nil error, and each of the
eight operations returns the empty string with a nil error. -/
theorem authenticate_error_is_swallowed :
    (sampleClient.authenticate authDownWorld).err = some "dial tcp: connection refused" ∧
      ∀ op : Operation, (op.run sampleClient authDownWorld .minimal).val = [] ∧
        (op.run sampleClient authDownWorld .minimal).err = none := by
  refine ⟨by decide, fun op => ?_⟩
  cases op <;> decide

/-- C2 (counterexample): the token endpoint answers every GET with status
500 and an empty body, from which no token decodes; `STKPushSimulation`
still enters the dispatcher, with the header `authorization: Bearer `, and
sends a POST. -/
theorem post_sent_after_auth_500 :
    (∀ request : Request, request.Method = "GET" →
        auth500World.clientDo request = .ok ⟨500, [], none⟩) ∧
      auth500World.decodeAccessToken ⟨500, [], none⟩ = "" ∧
      Event.dispatch "https://sandbox.safaricom.co.ke/mpesa/stkpush/v1/processrequest"
          (goBytes "\x7b\x7d")
          [("content-type", "application/json"), ("authorization", "Bearer "),
            ("cache-control", "no-cache")] ∈
        (Operation.STKPushSimulation.run sampleClient auth500World .minimal).trace ∧
      ((Operation.STKPushSimulation.run sampleClient auth500World .minimal).trace.any
        Event.isPost) = true := by
  refine ⟨fun request h => ?_, by decide, by decide, by decide⟩
  simp [auth500World, sampleWorld, h]

/-- C2 (as amended), at a concrete input. -/
theorem no_post_when_authenticate_errs_witness :
    (sampleClient.authenticate authDownWorld).err ≠ none ∧
      ∀ e ∈ (Operation.STKPushSimulation.run sampleClient authDownWorld .minimal).trace,
        e.isPost = false :=
  ⟨by decide,
    no_post_when_authenticate_errs .STKPushSimulation sampleClient authDownWorld .minimal
      (by decide)⟩

/-- C3 (the code departs from it): on a payload that `json.Marshal` rejects,
`STKPushSimulation`, `STKPushTransactionStatus` and `B2BRequest` return the
empty string with a nil error. -/
theorem marshal_error_is_swallowed :
    mockWorld.jsonMarshal .rejected = .error "json: unsupported value" ∧
      sampleClient.STKPushSimulation mockWorld .rejected = ⟨[], none, []⟩ ∧
      sampleClient.STKPushTransactionStatus mockWorld .rejected = ⟨[], none, []⟩ ∧
      sampleClient.B2BRequest mockWorld .rejected = ⟨[], none, []⟩ := by
  refine ⟨rfl, by decide, by decide, by decide⟩

/-- C4 (the code departs from it): on a payload that `json.Marshal` rejects,
`BalanceInquiry` has already sent the authentication GET when it returns. -/
theorem balanceInquiry_authenticates_before_marshal :
    mockWorld.jsonMarshal .rejected = .error "json: unsupported value" ∧
      (sampleClient.BalanceInquiry mockWorld .rejected).trace =
        [Event.roundTrip
          ⟨"GET",
            "https://sandbox.safaricom.co.ke/oauth/v1/generate?grant_type=client_credentials",
            goBytes "azpz",
            [("Authorization", ["Basic azpz"]), ("Cache-Control", ["no-cache"])]⟩] ∧
      ((sampleClient.BalanceInquiry mockWorld .rejected).trace.any Event.isNetwork) = true := by
  refine ⟨rfl, by decide, by decide⟩

/-- C5 (the code departs from it): for the URL `:`, which `http.NewRequest`
refuses, `newStringRequest` returns the empty string with a nil error. -/
theorem newStringRequest_construction_error_is_swallowed :
    mockWorld.newRequest "POST" ":" = some "missing protocol scheme" ∧
      sampleClient.newStringRequest mockWorld ":" (goBytes "\x7b\x7d") [] =
        ⟨[], none, [Event.dispatch ":" (goBytes "\x7b\x7d") []]⟩ := by
  refine ⟨by decide, by decide⟩

/-- C6, at a concrete input: a 404 answer with body `not found`. -/
theorem operation_returns_body_witness :
    Event.roundTrip samplePost ∈
        (Operation.STKPushSimulation.run sampleClient post404World .minimal).trace ∧
      samplePost.Method = "POST" ∧
      post404World.clientDo samplePost = .ok ⟨404, goBytes "not found", none⟩ ∧
      (Operation.STKPushSimulation.run sampleClient post404World .minimal).val =
        goBytes "not found" ∧
      (Operation.STKPushSimulation.run sampleClient post404World .minimal).err = none :=
  ⟨by decide, rfl, rfl,
    (operation_returns_body .STKPushSimulation sampleClient post404World .minimal
      samplePost 404 (goBytes "not found") (by decide) rfl rfl).1,
    (operation_returns_body .STKPushSimulation sampleClient post404World .minimal
      samplePost 404 (goBytes "not found") (by decide) rfl rfl).2.1⟩

/-- C7, at a concrete input: the end-to-end scenario. -/
theorem dispatched_url_is_base_plus_path_witness :
    (sampleClient.Env = SANDBOX ∨ sampleClient.Env = PRODUCTION) ∧
      Event.dispatch "https://sandbox.safaricom.co.ke/mpesa/stkpush/v1/processrequest"
          (goBytes "\x7b\x7d") sampleHeaders ∈
        (Operation.STKPushSimulation.run sampleClient mockWorld .minimal).trace ∧
      "https://sandbox.safaricom.co.ke/mpesa/stkpush/v1/processrequest" =
        specBaseURL sampleClient.Env ++ Operation.STKPushSimulation.path ∧
      "https://".data <+:
        "https://sandbox.safaricom.co.ke/mpesa/stkpush/v1/processrequest".data ∧
      countDoubleSlash
        "https://sandbox.safaricom.co.ke/mpesa/stkpush/v1/processrequest".data = 1 :=
  ⟨Or.inl rfl, by decide,
    dispatched_url_is_base_plus_path .STKPushSimulation sampleClient mockWorld .minimal
      "https://sandbox.safaricom.co.ke/mpesa/stkpush/v1/processrequest" (goBytes "\x7b\x7d")
      sampleHeaders (Or.inl rfl) (by decide)⟩

/-- C8 (the code departs from it): `STKPushTransactionStatus` passes two
headers to the dispatcher; no cache-control header is among them, under any
casing of the name. -/
theorem stkPushTransactionStatus_has_no_cache_control :
    Event.dispatch "https://sandbox.safaricom.co.ke/mpesa/stkpushquery/v1/query"
        (goBytes "\x7b\x7d")
        [("Content-Type", "application/json"), ("Authorization", "Bearer T")] ∈
        (sampleClient.STKPushTransactionStatus mockWorld .minimal).trace ∧
      canonicalHeaders [("Content-Type", "application/json"), ("Authorization", "Bearer T")] =
        [("Content-Type", ["application/json"]), ("Authorization", ["Bearer T"])] ∧
      GoMap.load
        (canonicalHeaders [("Content-Type", "application/json"), ("Authorization", "Bearer T")])
        (CanonicalMIMEHeaderKey "cache-control") = none ∧
      GoMap.load (specHeaders "T") (CanonicalMIMEHeaderKey "cache-control") =
        some ["no-cache"] := by
  refine ⟨by decide, by decide, by decide, by decide⟩

/-- C9, at a concrete input: key `k`, secret `s`, sandbox. -/
theorem authenticate_request_witness :
    mockWorld.newRequest "GET"
        ((New "k" "s" SANDBOX).1.baseURL ++ "oauth/v1/generate?grant_type=client_credentials") =
        none ∧
      ∃ request, ((New "k" "s" SANDBOX).1.authenticate mockWorld).trace =
          [Event.roundTrip request] ∧
        request.Method = "GET" ∧
        request.URL =
          (New "k" "s" SANDBOX).1.baseURL ++ "oauth/v1/generate?grant_type=client_credentials" ∧
        request.Header.Get "authorization" =
          "Basic " ++ base64StdEncodeToString (goBytes ("k" ++ ":" ++ "s")) ∧
        base64StdDecodeString (String.mk ((request.Header.Get "authorization").data.drop 6)) =
          some (goBytes ("k" ++ ":" ++ "s")) :=
  ⟨by decide, authenticate_request mockWorld "k" "s" SANDBOX (by decide)⟩

/-- C10, at the environments -1 and 2. -/
theorem New_total_and_defaults_to_sandbox_witness :
    (New "k" "s" (-1) = (⟨"k", "s", -1⟩, none) ∧
        (New "k" "s" (-1)).1.baseURL = "https://sandbox.safaricom.co.ke/") ∧
      (New "k" "s" 2 = (⟨"k", "s", 2⟩, none) ∧
        (New "k" "s" 2).1.baseURL = "https://sandbox.safaricom.co.ke/") :=
  ⟨⟨(New_total_and_defaults_to_sandbox "k" "s" (-1)).1,
      (New_total_and_defaults_to_sandbox "k" "s" (-1)).2 (by decide)⟩,
    ⟨(New_total_and_defaults_to_sandbox "k" "s" 2).1,
      (New_total_and_defaults_to_sandbox "k" "s" 2).2 (by decide)⟩⟩

end MpesaApi
